import Mathlib

/-!
Verification of `src/backend/app/views.py` (Flask + MongoDB image-moderation
service) against its specification.

The embedding is shallow: each route handler becomes a pure Lean function of
the request inputs, the database contents, and the current time.  MongoDB
aggregation stages (`$lookup`, `$unwind`, `$match`, `$sort`, `$group`,
`$skip`, `$limit`) are modelled by list operations with MongoDB's documented
semantics; `update_one` / `find_one` are modelled on a list of image
documents.  Configuration constants (`VALID_STATUSES`,
`STATISTIC_NUMBER_OF_DAYS`, `DEFAULT_PAGINATION_NUMBER_OF_GROUPS_TO_RETURN`)
live in `config/config.py`, which is not part of the core source; they are
passed in as an explicit `Config` record, per the spec's instruction to
"represent as an explicit configuration struct passed into the handler layer".
-/

/- ### Python / library primitives used by the handlers -/

/-- One character of `markupsafe.escape`: the five HTML-special characters
are replaced by entities, everything else is kept.  (`Char.ofNat 34` is the
double quote, `Char.ofNat 39` the single quote.) -/
def escChar (c : Char) : String :=
  if c = '&' then "&amp;"
  else if c = '<' then "&lt;"
  else if c = '>' then "&gt;"
  else if c = Char.ofNat 34 then "&#34;"
  else if c = Char.ofNat 39 then "&#39;"
  else String.singleton c

/-- `markupsafe.escape` on a string (the handlers apply it to query-parameter
strings before validating / parsing them). -/
def escapeHtml (s : String) : String :=
  s.toList.foldl (fun acc c => acc ++ escChar c) ""

/-- Digits of a decimal literal folded into a natural number. -/
def natFromDigits (ds : List Char) : Nat :=
  ds.foldl (fun a c => a * 10 + (c.toNat - 48)) 0

/-- The ASCII whitespace characters CPython's `int(str)` strips: 0x09-0x0D
(tab through carriage return), 0x1C-0x1F (the separator controls, which
`str.isspace` also accepts) and the space 0x20. -/
def pyWs (c : Char) : Bool :=
  (9 ≤ c.toNat && c.toNat ≤ 13) || (28 ≤ c.toNat && c.toNat ≤ 31) ||
    c.toNat == 32

/-- Strip leading and trailing Python whitespace from a character list
(structural, so it evaluates by kernel reduction). -/
def stripWs (l : List Char) : List Char :=
  ((l.dropWhile pyWs).reverse.dropWhile pyWs).reverse

/-- Continuation of a CPython decimal-digit run after its first digit:
digits, with single underscores allowed only between two digits (CPython
3.6+ digit grouping: `"1_0"` parses, `"_1"`, `"1_"`, `"1__0"` do not). -/
def pyDigitsRest : List Char → Bool
  | [] => true
  | c :: rest =>
    if c.isDigit then pyDigitsRest rest
    else if c = '_' then
      match rest with
      | [] => false
      | d :: rest2 => d.isDigit && pyDigitsRest rest2
    else false

/-- A non-empty CPython decimal-digit run with optional underscore
grouping. -/
def pyDigits : List Char → Bool
  | [] => false
  | c :: rest => c.isDigit && pyDigitsRest rest

/-- Every character of the string is ASCII.  `pyInt` below models CPython's
`int(str)` exactly on ASCII input; CPython additionally accepts non-ASCII
decimal digits (Unicode category Nd) and non-ASCII whitespace, which are
outside the model, so theorems that conclude from a *failed* parse carry
this predicate as a hypothesis. -/
def isAsciiStr (s : String) : Bool :=
  s.toList.all (fun c => c.toNat < 128)

/-- Python's built-in `int(str)` on ASCII input: surrounding whitespace is
stripped, an optional single sign is allowed, then a non-empty run of
decimal digits with optional single underscores between digits.  On failure
it raises `ValueError` with the message modelled here. -/
def pyInt (s : String) : Except String Int :=
  let t := stripWs s.toList
  let signed : Int × List Char :=
    match t with
    | c :: rest =>
      if c = '-' then (-1, rest)
      else if c = '+' then (1, rest)
      else (1, t)
    | [] => (1, [])
  if pyDigits signed.2 then
    .ok (signed.1 * (natFromDigits (signed.2.filter (fun c => !(c == '_'))) : Nat))
  else
    .error ("invalid literal for int() with base 10: " ++ s)

/-- Hexadecimal digit test, as accepted by `bson.ObjectId`. -/
def isHexChar (c : Char) : Bool :=
  c.isDigit || (Char.ofNat 97 ≤ c && c ≤ Char.ofNat 102) ||
    (Char.ofNat 65 ≤ c && c ≤ Char.ofNat 70)

/-- Value of one hexadecimal digit. -/
def hexDigitVal (c : Char) : Nat :=
  if c.isDigit then c.toNat - 48
  else if Char.ofNat 97 ≤ c && c ≤ Char.ofNat 102 then c.toNat - 87
  else c.toNat - 55

/-- `bson.ObjectId(image_id)` on a string argument: exactly 24 hexadecimal
characters, decoded as a 12-byte big-endian number; anything else raises
`InvalidId`.  Document ids are modelled as the decoded numbers. -/
def parseObjectId (s : String) : Option Nat :=
  if s.length = 24 ∧ s.toList.all isHexChar then
    some (s.toList.foldl (fun a c => a * 16 + hexDigitVal c) 0)
  else
    none

/-- Python `repr` of a list of strings, as interpolated by the f-string
`f"Valid statuses are - {VALID_STATUSES}"`.  (CPython also quotes each
element; the quoting is immaterial to every claim and is left out.) -/
def pyListRepr (l : List String) : String :=
  "[" ++ String.intercalate ", " l ++ "]"

/- ### Data model -/

/-- An image document of the `images` collection.  Timestamps are modelled
as integers (seconds); `_id` and `group_id` as the numbers encoded by the
ObjectIds. -/
structure Image where
  _id : Nat
  group_id : Nat
  status : String
  created_at : Int
  last_updated_at : Int
  url : String
deriving Repr, DecidableEq

/-- A group document of the `groups` collection. -/
structure GroupDoc where
  _id : Nat
  name : String
deriving Repr, DecidableEq

/-- The database contents seen by one request. -/
structure DB where
  groups : List GroupDoc
  images : List Image
deriving Repr, DecidableEq

/-- The externally supplied configuration (`config/config.py`). -/
structure Config where
  valid_statuses : List String
  default_groups_per_page : Int
  statistic_number_of_days : Int
deriving Repr, DecidableEq

/- ### GET /groups : the aggregation pipeline -/

/-- A document after the `$lookup` stage: a group with its joined `images`
array. -/
structure LookupDoc where
  _id : Nat
  name : String
  images : List Image
deriving Repr, DecidableEq

/-- A document after the `$unwind` stage: a (group, single image) row. -/
structure Row where
  _id : Nat
  name : String
  image : Image
deriving Repr, DecidableEq

/-- Stage 1, `$lookup`: join each group to the images whose `group_id`
equals the group's `_id` (in collection order). -/
def lookupList (gs : List GroupDoc) (imgs : List Image) : List LookupDoc :=
  gs.map (fun g => ⟨g._id, g.name, imgs.filter (fun i => i.group_id == g._id)⟩)

/-- Stage 2, `$unwind: $images`: one row per (group, image) pair; a group
whose joined `images` array is empty yields no rows. -/
def unwindStage (docs : List LookupDoc) : List Row :=
  docs.flatMap (fun d => d.images.map (fun i => ⟨d._id, d.name, i⟩))

/-- Stages 1-2 composed: the rows produced by `$lookup` then `$unwind` on
the given collections. -/
def rowsOf (gs : List GroupDoc) (imgs : List Image) : List Row :=
  unwindStage (lookupList gs imgs)

/-- The optional `$match: images.status` stage, inserted at pipeline index 2
(after `$unwind`, before `$sort`) when a valid status filter is supplied. -/
def matchStage (s : String) (rows : List Row) : List Row :=
  rows.filter (fun r => r.image.status == s)

/-- Insertion into a sorted list, for the sort model below. -/
def insertSorted (le : α → α → Bool) (a : α) : List α → List α
  | [] => [a]
  | b :: l => if le a b then a :: b :: l else b :: insertSorted le a l

/-- The sort executed by a `$sort` stage: a sort of the input by the given
(total, transitive) Boolean key comparison.  MongoDB leaves the relative
order of ties unspecified, so any comparison sort is a faithful model; an
insertion sort is used so that the model evaluates by kernel reduction. -/
def sortBy (le : α → α → Bool) : List α → List α
  | [] => []
  | a :: l => insertSorted le a (sortBy le l)

/-- Sort key of stage `$sort: images.last_updated_at: -1` — descending. -/
def rowLe (a b : Row) : Bool :=
  decide (b.image.last_updated_at ≤ a.image.last_updated_at)

/-- Stage `$sort: images.last_updated_at: -1`. -/
def sortStage (rows : List Row) : List Row :=
  sortBy rowLe rows

/-- `$first: $name` accumulator of the `$group` stage. -/
def firstName (rs : List Row) : String :=
  match rs with
  | [] => ""
  | r :: _ => r.name

/-- A group object of the response: `_id`, `name`, the re-aggregated
`images` array and the `count` field. -/
structure GroupOut where
  _id : Nat
  name : String
  images : List Image
  count : Nat
deriving Repr, DecidableEq

/-- The output document of the `$group` stage for one group key. -/
def groupEntry (rows : List Row) (gid : Nat) : GroupOut :=
  let rs := rows.filter (fun r => r._id == gid)
  ⟨gid, firstName rs, rs.map Row.image, rs.length⟩

/-- Stage `$group: _id, name: $first, images: $push, count: $sum 1`:
one output document per distinct `_id` among the rows (first-occurrence
order; the order is irrelevant because the next stage re-sorts). -/
def groupStage (rows : List Row) : List GroupOut :=
  ((rows.map (fun r => r._id)).dedup).map (groupEntry rows)

/-- Lexicographic ≤ on character lists (by code point), written as a
structurally recursive Boolean so that it evaluates by kernel reduction.
Proved below to agree with the standard `≤` on `String`. -/
def charListLe : List Char → List Char → Bool
  | [], _ => true
  | _ :: _, [] => false
  | a :: as, b :: bs => if a = b then charListLe as bs else decide (a < b)

/-- Lexicographic ≤ on strings — the order MongoDB uses for a `$sort` on a
string field (binary comparison of the UTF-8 code points). -/
def strLe (a b : String) : Bool :=
  charListLe a.toList b.toList

/-- Sort key of the final `$sort: name: 1` stage — ascending by name. -/
def nameLe (a b : GroupOut) : Bool :=
  strLe a.name b.name

/-- Stage `$sort: name: 1`. -/
def nameSortStage (gs : List GroupOut) : List GroupOut :=
  sortBy nameLe gs

/-- The rows entering the `$sort` stage: the unwound join, with the
`$match` stage applied exactly when a (validated) status filter is. -/
def filteredRows (db : DB) (sfilter : Option String) : List Row :=
  match sfilter with
  | some s => matchStage s (rowsOf db.groups db.images)
  | none => rowsOf db.groups db.images

/-- The whole unpaginated pipeline of `get_groups_with_images`. -/
def pipelineGroups (db : DB) (sfilter : Option String) : List GroupOut :=
  nameSortStage (groupStage (sortStage (filteredRows db sfilter)))

/-- Result of a `GET /groups` request: a 200 JSON array, a 400 error
envelope built by the handler, or an uncaught server-side failure (the
handler wraps no `try` around `aggregate`, so a MongoDB `OperationFailure`
escapes as an HTTP 500). -/
inductive GroupsResult where
  | ok (groups : List GroupOut)
  | badRequest (name description : String)
  | serverError (description : String)
deriving Repr, DecidableEq

/-- The value whose `int(escape(...))` is taken for `groups_per_page`:
the query parameter if supplied and non-empty (`or` is Python truthiness),
otherwise the configured default (an `int`, which `escape` stringifies). -/
def gppValue (cfg : Config) (groups_per_page : Option String) : String :=
  match groups_per_page with
  | some g => if g = "" then toString cfg.default_groups_per_page else g
  | none => toString cfg.default_groups_per_page

/-- Pagination block (lines 162-179) plus the `aggregate` call: if `page`
is truthy, parse `page` and `groups_per_page` (a `ValueError` from either
becomes a 400), then append `$skip: page * groups_per_page` and
`$limit: groups_per_page`.  MongoDB rejects a negative `$skip` and a
non-positive `$limit`, which surfaces as an uncaught error. -/
def runPaged (cfg : Config) (db : DB) (sfilter : Option String)
    (page : Option String) (groups_per_page : Option String) : GroupsResult :=
  if (page.getD "") ≠ "" then
    match pyInt (escapeHtml (page.getD "")) with
    | .error e => .badRequest "Invalid values of query parameters" e
    | .ok p =>
      match pyInt (escapeHtml (gppValue cfg groups_per_page)) with
      | .error e => .badRequest "Invalid values of query parameters" e
      | .ok n =>
        let skip := p * n
        let limit := n
        if skip < 0 then
          .serverError "invalid argument to $skip stage: Expected a non-negative number"
        else if limit ≤ 0 then
          .serverError "the limit must be positive"
        else
          .ok (((pipelineGroups db sfilter).drop skip.toNat).take limit.toNat)
  else
    .ok (pipelineGroups db sfilter)

/-- `GET /groups` (lines 17-183).  `status`, `page`, `groups_per_page` are
the raw query parameters (`request.args.get`, absent = `none`).  The status
check (lines 152-159) runs before the pagination block: a truthy status
whose escaped form is in `VALID_STATUSES` inserts the `$match` stage, a
truthy status failing that check returns 400 before any query, and a falsy
status (absent or empty) is ignored. -/
def get_groups_with_images (cfg : Config) (db : DB)
    (status page groups_per_page : Option String) : GroupsResult :=
  let status_filter := status.getD ""
  if status_filter ≠ "" ∧ escapeHtml status_filter ∈ cfg.valid_statuses then
    runPaged cfg db (some status_filter) page groups_per_page
  else if status_filter ≠ "" then
    .badRequest "Invalid status" ("Valid statuses are - " ++ pyListRepr cfg.valid_statuses)
  else
    runPaged cfg db none page groups_per_page

/- ### PUT /images/<image_id> -/

/-- Result of a `PUT /images/<image_id>` request: `success` is an HTTP 200
with a `message` body, `err` an error envelope with its HTTP code. -/
inductive UpdateResp where
  | success (message : String)
  | err (code : Nat) (name description : String)
deriving Repr, DecidableEq

/-- `update_one({_id: pid}, {$set: {status, last_updated_at: now}})`:
rewrites the first (for `_id`, the only) document matching the id. -/
def updateFirst (coll : List Image) (pid : Nat) (s : String) (now : Int) :
    List Image :=
  match coll with
  | [] => []
  | i :: rest =>
    if i._id == pid then { i with status := s, last_updated_at := now } :: rest
    else i :: updateFirst rest pid s now

/-- `PUT /images/<image_id>` (lines 186-326).  `body_status` is the
`status` field of the request JSON (`data.get('status')`, absent = `none`);
`now` is `datetime.utcnow()` at write time.  Returns the response and the
collection after the request. -/
def update_image_status (cfg : Config) (coll : List Image)
    (image_id : String) (body_status : Option String) (now : Int) :
    UpdateResp × List Image :=
  match parseObjectId image_id with
  | none =>
    (.err 400 "Invalid ObjectId"
      (image_id ++ " is not a valid ObjectId, it must be a 12-byte input or a 24-character hex string"), coll)
  | some pid =>
    match body_status with
    | none =>
      -- `None not in VALID_STATUSES` is always true
      (.err 400 "Invalid status"
        ("Valid statuses are - " ++ pyListRepr cfg.valid_statuses), coll)
    | some new_status =>
      if new_status ∈ cfg.valid_statuses then
        -- find_one({_id}, {status: 1}); None when absent
        let current : Option String :=
          (coll.find? (fun i => i._id == pid)).map Image.status
        if some new_status ≠ current then
          -- update_one: modified_count is 1 exactly when a document matched
          -- (the $set always changes `status` here, since it differs)
          if (coll.find? (fun i => i._id == pid)).isSome then
            (.success "Image status updated", updateFirst coll pid new_status now)
          else
            (.err 400 "Image not found"
              "Specified ID was not found in database", coll)
        else
          (.success "Requested status is the same as current", coll)
      else
        (.err 400 "Invalid status"
          ("Valid statuses are - " ++ pyListRepr cfg.valid_statuses), coll)

/- ### GET /statistics -/

/-- The `$match` predicate of the statistics pipeline:
`created_at: {$gte: now - days, $lte: now}` with
`timedelta(days=days)` measured in seconds. -/
def inStatWindow (now : Int) (days : Int) (i : Image) : Bool :=
  decide (now - days * 86400 ≤ i.created_at) && decide (i.created_at ≤ now)

/-- `GET /statistics` (lines 329-398).  `days_arg` models the `days` query
parameter, which the handler no longer reads (lines 368-377 are commented
out); the window is always `STATISTIC_NUMBER_OF_DAYS`.  Returns the HTTP
code (always 200) and the status→count object as an association list, one
entry per status observed among the matched images. -/
def get_statistics (cfg : Config) (_days_arg : Option String)
    (coll : List Image) (now : Int) : Nat × List (String × Nat) :=
  let days := cfg.statistic_number_of_days
  let matched := coll.filter (inStatWindow now days)
  let stats := ((matched.map Image.status).dedup).map
    (fun s => (s, (matched.filter (fun i => i.status == s)).length))
  (200, stats)

/- ### Concrete configuration and database for witnesses / counterexamples -/

/-- The configured valid-status set, as documented by the handler docstrings
(`config/config.py` itself is outside the core source); the other two
constants are representative concrete values. -/
def cfgC : Config := ⟨["new", "review", "accepted", "deleted"], 10, 30⟩

def imgA : Image := ⟨101, 1, "new", 100, 500, "uA"⟩

def imgB : Image := ⟨102, 1, "accepted", 200, 900, "uB"⟩

def imgC : Image := ⟨103, 2, "new", 300, 700, "uC"⟩

/-- Three groups: "B" with two images, "A" with one, "C" with none. -/
def dbC : DB := ⟨[⟨1, "B"⟩, ⟨2, "A"⟩, ⟨3, "C"⟩], [imgA, imgB, imgC]⟩

/-- The unfiltered, unpaginated response for `dbC`. -/
def gsC : List GroupOut := [⟨2, "A", [imgC], 1⟩, ⟨1, "B", [imgB, imgA], 2⟩]

/- ### Lemmas about the sort model -/

theorem insertSorted_perm (le : α → α → Bool) (a : α) (l : List α) :
    (insertSorted le a l).Perm (a :: l) := by
  induction l with
  | nil => exact List.Perm.refl _
  | cons b l ih =>
    by_cases h : le a b
    · rw [insertSorted, if_pos h]
    · rw [insertSorted, if_neg h]
      exact (ih.cons b).trans (List.Perm.swap a b l)

theorem sortBy_perm (le : α → α → Bool) (l : List α) : (sortBy le l).Perm l := by
  induction l with
  | nil => exact List.Perm.refl _
  | cons a l ih =>
    exact (insertSorted_perm le a (sortBy le l)).trans (ih.cons a)

theorem pairwise_insertSorted (le : α → α → Bool)
    (htrans : ∀ a b c, le a b = true → le b c = true → le a c = true)
    (htot : ∀ a b, (le a b || le b a) = true) (a : α) :
    ∀ l : List α, l.Pairwise (fun x y => le x y = true) →
      (insertSorted le a l).Pairwise (fun x y => le x y = true) := by
  intro l
  induction l with
  | nil => intro _; simp [insertSorted]
  | cons b l ih =>
    intro hl
    rcases List.pairwise_cons.1 hl with ⟨hb, hl'⟩
    by_cases h : le a b
    · rw [insertSorted, if_pos h]
      refine List.pairwise_cons.2 ⟨?_, hl⟩
      intro x hx
      rcases List.mem_cons.1 hx with rfl | hx'
      · exact h
      · exact htrans a b x h (hb x hx')
    · rw [insertSorted, if_neg h]
      refine List.pairwise_cons.2 ⟨?_, ih hl'⟩
      intro x hx
      rcases List.mem_cons.1 ((insertSorted_perm le a l).mem_iff.1 hx) with heq | hx'
      · rw [heq]
        have h2 := htot a b
        rw [Bool.or_eq_true] at h2
        rcases h2 with h1 | h1
        · exact absurd h1 h
        · exact h1
      · exact hb x hx'

theorem sortBy_pairwise (le : α → α → Bool)
    (htrans : ∀ a b c, le a b = true → le b c = true → le a c = true)
    (htot : ∀ a b, (le a b || le b a) = true) (l : List α) :
    (sortBy le l).Pairwise (fun x y => le x y = true) := by
  induction l with
  | nil => exact List.Pairwise.nil
  | cons a l ih => exact pairwise_insertSorted le htrans htot a _ ih

/- ### Lemmas about the sort stages -/

theorem rowLe_trans (a b c : Row) (hab : rowLe a b = true) (hbc : rowLe b c = true) :
    rowLe a c = true := by
  simp only [rowLe, decide_eq_true_eq] at *
  exact le_trans hbc hab

theorem rowLe_total (a b : Row) : (rowLe a b || rowLe b a) = true := by
  simp only [rowLe, Bool.or_eq_true, decide_eq_true_eq]
  exact le_total _ _

theorem charListLe_iff_not_lt : ∀ x y : List Char, charListLe x y = true ↔ ¬ y < x := by
  intro x
  induction x with
  | nil =>
    intro y
    constructor
    · intro _ h
      cases h
    · intro _
      rfl
  | cons a as ih =>
    intro y
    cases y with
    | nil =>
      constructor
      · intro h
        cases h
      · intro h
        exact absurd List.Lex.nil h
    | cons b bs =>
      by_cases hab : a = b
      · subst hab
        rw [charListLe, if_pos rfl, ih bs]
        constructor
        · intro h hlt
          cases hlt with
          | cons htl => exact h htl
          | rel hba => exact absurd hba (lt_irrefl a)
        · intro h htl
          exact h (List.Lex.cons htl)
      · rw [charListLe, if_neg hab, decide_eq_true_eq]
        constructor
        · intro h hlt
          cases hlt with
          | cons htl => exact hab rfl
          | rel hba => exact absurd h (asymm hba)
        · intro h
          rcases lt_or_gt_of_ne hab with h1 | h1
          · exact h1
          · exact absurd (List.Lex.rel (show b < a from h1)) h

theorem strLe_iff {a b : String} : strLe a b = true ↔ a ≤ b := by
  rw [strLe, charListLe_iff_not_lt]
  exact (not_congr String.lt_iff_toList_lt).symm

theorem nameLe_trans (a b c : GroupOut) (hab : nameLe a b = true) (hbc : nameLe b c = true) :
    nameLe a c = true :=
  strLe_iff.2 (le_trans (strLe_iff.1 hab) (strLe_iff.1 hbc))

theorem nameLe_total (a b : GroupOut) : (nameLe a b || nameLe b a) = true := by
  rcases le_total a.name b.name with h | h
  · simp [nameLe, strLe_iff.2 h]
  · simp [nameLe, strLe_iff.2 h]

theorem sortStage_perm (rows : List Row) : (sortStage rows).Perm rows :=
  sortBy_perm rowLe rows

theorem sortStage_sorted (rows : List Row) :
    (sortStage rows).Pairwise
      (fun a b => b.image.last_updated_at ≤ a.image.last_updated_at) := by
  have h := sortBy_pairwise rowLe rowLe_trans rowLe_total rows
  exact h.imp (fun hab => by simpa [rowLe, decide_eq_true_eq] using hab)

theorem nameSortStage_perm (gs : List GroupOut) : (nameSortStage gs).Perm gs :=
  sortBy_perm nameLe gs

theorem nameSortStage_sorted (gs : List GroupOut) :
    (nameSortStage gs).Pairwise (fun a b => a.name ≤ b.name) := by
  have h := sortBy_pairwise nameLe nameLe_trans nameLe_total gs
  exact h.imp (fun hab => strLe_iff.1 hab)

/- ### Lemmas about the join (`$lookup` + `$unwind`) -/

theorem rowsOf_nil (imgs : List Image) : rowsOf [] imgs = [] := rfl

theorem rowsOf_cons (g : GroupDoc) (gs : List GroupDoc) (imgs : List Image) :
    rowsOf (g :: gs) imgs =
      (imgs.filter (fun i => i.group_id == g._id)).map (fun i => ⟨g._id, g.name, i⟩) ++
        rowsOf gs imgs := by
  simp [rowsOf, lookupList, unwindStage]

theorem mem_rowsOf {r : Row} {gs : List GroupDoc} {imgs : List Image} :
    r ∈ rowsOf gs imgs ↔
      ∃ g ∈ gs, ∃ i ∈ imgs, i.group_id = g._id ∧ r = ⟨g._id, g.name, i⟩ := by
  constructor
  · intro h
    simp only [rowsOf, lookupList, unwindStage, List.mem_flatMap, List.mem_map] at h
    rcases h with ⟨d, ⟨g, hg, rfl⟩, i, hi, heq⟩
    rcases List.mem_filter.1 hi with ⟨hi', hgi⟩
    exact ⟨g, hg, i, hi', by rwa [beq_iff_eq] at hgi, heq.symm⟩
  · rintro ⟨g, hg, i, hi, hgi, rfl⟩
    simp only [rowsOf, lookupList, unwindStage, List.mem_flatMap, List.mem_map]
    refine ⟨⟨g._id, g.name, imgs.filter (fun i => i.group_id == g._id)⟩, ⟨g, hg, rfl⟩, ?_⟩
    exact ⟨i, List.mem_filter.2 ⟨hi, by rw [beq_iff_eq]; exact hgi⟩, rfl⟩

theorem rowsOf_id_mem {r : Row} {gs : List GroupDoc} {imgs : List Image}
    (h : r ∈ rowsOf gs imgs) : r._id ∈ gs.map GroupDoc._id := by
  rcases mem_rowsOf.1 h with ⟨g, hg, i, _, _, rfl⟩
  exact List.mem_map.2 ⟨g, hg, rfl⟩

theorem filter_rowsOf_eq_nil {gid : Nat} {gs : List GroupDoc} {imgs : List Image}
    (h : gid ∉ gs.map GroupDoc._id) :
    (rowsOf gs imgs).filter (fun r => r._id == gid) = [] := by
  rw [List.filter_eq_nil_iff]
  intro r hr hb
  rw [beq_iff_eq] at hb
  exact h (hb ▸ rowsOf_id_mem hr)

theorem filter_rowsOf {gs : List GroupDoc} (imgs : List Image)
    (hnd : (gs.map GroupDoc._id).Nodup) {g : GroupDoc} (hg : g ∈ gs) :
    (rowsOf gs imgs).filter (fun r => r._id == g._id) =
      (imgs.filter (fun i => i.group_id == g._id)).map (fun i => ⟨g._id, g.name, i⟩) := by
  induction gs with
  | nil => cases hg
  | cons g0 gs ih =>
    rw [List.map_cons, List.nodup_cons] at hnd
    rw [rowsOf_cons, List.filter_append]
    rcases List.mem_cons.1 hg with rfl | hg'
    · have h1 : ((imgs.filter (fun i => i.group_id == g._id)).map
          (fun i => (⟨g._id, g.name, i⟩ : Row))).filter (fun r => r._id == g._id) =
          (imgs.filter (fun i => i.group_id == g._id)).map (fun i => ⟨g._id, g.name, i⟩) := by
        rw [List.filter_eq_self]
        intro r hr
        rcases List.mem_map.1 hr with ⟨i, _, rfl⟩
        exact beq_self_eq_true _
      rw [h1, filter_rowsOf_eq_nil hnd.1, List.append_nil]
    · have hne : (g0._id == g._id) = false := by
        rw [beq_eq_false_iff_ne]
        intro he
        exact hnd.1 (he ▸ List.mem_map.2 ⟨g, hg', rfl⟩)
      have h1 : ((imgs.filter (fun i => i.group_id == g0._id)).map
          (fun i => (⟨g0._id, g0.name, i⟩ : Row))).filter (fun r => r._id == g._id) = [] := by
        rw [List.filter_eq_nil_iff]
        intro r hr hb
        rcases List.mem_map.1 hr with ⟨i, _, rfl⟩
        simp only [hne] at hb
        cases hb
      rw [h1, List.nil_append, ih hnd.2 hg']

/- ### Lemmas about the `$group` stage -/

theorem mem_groupStage {go : GroupOut} {rows : List Row} :
    go ∈ groupStage rows ↔
      ∃ gid, gid ∈ (rows.map (fun r => r._id)).dedup ∧ go = groupEntry rows gid := by
  simp only [groupStage, List.mem_map]
  constructor
  · rintro ⟨gid, hm, rfl⟩; exact ⟨gid, hm, rfl⟩
  · rintro ⟨gid, hm, rfl⟩; exact ⟨gid, hm, rfl⟩

theorem groupEntry_id (rows : List Row) (gid : Nat) : (groupEntry rows gid)._id = gid := rfl

theorem groupEntry_images (rows : List Row) (gid : Nat) :
    (groupEntry rows gid).images = (rows.filter (fun r => r._id == gid)).map Row.image := rfl

theorem groupEntry_count_eq_length (rows : List Row) (gid : Nat) :
    (groupEntry rows gid).count = (groupEntry rows gid).images.length := by
  simp [groupEntry]

theorem mem_pipelineGroups {go : GroupOut} {db : DB} {sf : Option String} :
    go ∈ pipelineGroups db sf ↔ go ∈ groupStage (sortStage (filteredRows db sf)) :=
  (nameSortStage_perm _).mem_iff

/- ### Lemmas about the handler's control flow -/

theorem runPaged_none (cfg : Config) (db : DB) (sf : Option String) (gpp : Option String) :
    runPaged cfg db sf none gpp = .ok (pipelineGroups db sf) := by
  simp [runPaged]

theorem runPaged_ok_sublist {cfg : Config} {db : DB} {sf : Option String}
    {pg gpp : Option String} {gs : List GroupOut}
    (h : runPaged cfg db sf pg gpp = .ok gs) : gs.Sublist (pipelineGroups db sf) := by
  unfold runPaged at h
  dsimp only at h
  split at h
  · split at h
    · cases h
    · split at h
      · cases h
      · split at h
        · cases h
        · split at h
          · cases h
          · cases h
            exact (List.take_sublist _ _).trans (List.drop_sublist _ _)
  · cases h
    exact List.Sublist.refl _

theorem get_groups_none_eq (cfg : Config) (db : DB) (pg gpp : Option String) :
    get_groups_with_images cfg db none pg gpp = runPaged cfg db none pg gpp := by
  simp [get_groups_with_images]

theorem get_groups_valid_eq (cfg : Config) (db : DB) {s : String} (pg gpp : Option String)
    (hne : s ≠ "") (hs : escapeHtml s ∈ cfg.valid_statuses) :
    get_groups_with_images cfg db (some s) pg gpp = runPaged cfg db (some s) pg gpp := by
  simp [get_groups_with_images, hne, hs]

theorem get_groups_invalid_eq (cfg : Config) (db : DB) {s : String} (pg gpp : Option String)
    (hne : s ≠ "") (hs : escapeHtml s ∉ cfg.valid_statuses) :
    get_groups_with_images cfg db (some s) pg gpp =
      .badRequest "Invalid status" ("Valid statuses are - " ++ pyListRepr cfg.valid_statuses) := by
  simp [get_groups_with_images, hne, hs]

theorem get_groups_ok_sublist {cfg : Config} {db : DB} {st pg gpp : Option String}
    {gs : List GroupOut} (h : get_groups_with_images cfg db st pg gpp = .ok gs) :
    ∃ sf, gs.Sublist (pipelineGroups db sf) := by
  unfold get_groups_with_images at h
  dsimp only at h
  split at h
  · exact ⟨_, runPaged_ok_sublist h⟩
  · split at h
    · cases h
    · exact ⟨none, runPaged_ok_sublist h⟩

theorem count_eq_length_of_mem_pipeline {go : GroupOut} {db : DB} {sf : Option String}
    (h : go ∈ pipelineGroups db sf) : go.count = go.images.length := by
  rcases mem_groupStage.1 (mem_pipelineGroups.1 h) with ⟨gid, _, rfl⟩
  exact groupEntry_count_eq_length _ _

/- ### C4: `count` equals `images.length` in every response -/

/-- C4: in every group object of every successful GET /groups response
(filtered or not, paginated or not), the `count` field equals the length of
that group's `images` array. -/
theorem C4_count_eq_images_length (cfg : Config) (db : DB)
    (status page gpp : Option String) (gs : List GroupOut)
    (h : get_groups_with_images cfg db status page gpp = .ok gs) :
    ∀ go ∈ gs, go.count = go.images.length := by
  rcases get_groups_ok_sublist h with ⟨sf, hsub⟩
  intro go hgo
  exact count_eq_length_of_mem_pipeline (hsub.subset hgo)

theorem C4_count_eq_images_length_witness :
    get_groups_with_images cfgC dbC none none none = .ok gsC ∧
      ∀ go ∈ gsC, go.count = go.images.length :=
  ⟨by decide, C4_count_eq_images_length cfgC dbC none none none gsC (by decide)⟩

/- ### C5: response ordering -/

/-- C5: in every successful GET /groups response, the group objects are
ordered ascending by `name`, and within each group the `images` array is
ordered descending by `last_updated_at`. -/
theorem C5_response_ordering (cfg : Config) (db : DB)
    (status page gpp : Option String) (gs : List GroupOut)
    (h : get_groups_with_images cfg db status page gpp = .ok gs) :
    gs.Pairwise (fun a b => a.name ≤ b.name) ∧
      ∀ go ∈ gs, go.images.Pairwise
        (fun a b => b.last_updated_at ≤ a.last_updated_at) := by
  rcases get_groups_ok_sublist h with ⟨sf, hsub⟩
  constructor
  · exact List.Pairwise.sublist hsub (nameSortStage_sorted _)
  · intro go hgo
    rcases mem_groupStage.1 (mem_pipelineGroups.1 (hsub.subset hgo)) with ⟨gid, _, rfl⟩
    rw [groupEntry_images]
    exact ((sortStage_sorted (filteredRows db sf)).filter _).map Row.image
      (fun a b hab => hab)

theorem C5_response_ordering_witness :
    get_groups_with_images cfgC dbC none none none = .ok gsC ∧
      (gsC.Pairwise (fun a b => a.name ≤ b.name) ∧
        ∀ go ∈ gsC, go.images.Pairwise
          (fun a b => b.last_updated_at ≤ a.last_updated_at)) :=
  ⟨by decide, C5_response_ordering cfgC dbC none none none gsC (by decide)⟩

/- ### C10: groups with no images never appear -/

theorem mem_groupStage_exists_row {go : GroupOut} {rows : List Row}
    (h : go ∈ groupStage rows) : ∃ r ∈ rows, r._id = go._id := by
  rcases mem_groupStage.1 h with ⟨gid, hm, rfl⟩
  rw [List.mem_dedup, List.mem_map] at hm
  rcases hm with ⟨r, hr, hrid⟩
  exact ⟨r, hr, hrid⟩

theorem groupStage_count_pos {go : GroupOut} {rows : List Row}
    (h : go ∈ groupStage rows) : 0 < go.count := by
  rcases mem_groupStage.1 h with ⟨gid, hm, rfl⟩
  rw [List.mem_dedup, List.mem_map] at hm
  rcases hm with ⟨r, hr, hrid⟩
  exact List.length_pos_of_mem
    (List.mem_filter.2 ⟨hr, by rw [beq_iff_eq]; exact hrid⟩)

/-- C10: for every GET /groups request without a status filter, a group
that has zero associated images is entirely absent from the response (the
`$unwind` of an empty joined image list produces no rows for the group), so
the unfiltered listing never shows an empty group with `count` 0. -/
theorem C10_empty_groups_absent (cfg : Config) (db : DB) (page gpp : Option String)
    (gs : List GroupOut) (h : get_groups_with_images cfg db none page gpp = .ok gs) :
    (∀ go ∈ gs, (∃ i ∈ db.images, i.group_id = go._id) ∧ go.count ≠ 0) ∧
      ∀ g ∈ db.groups, (∀ i ∈ db.images, i.group_id ≠ g._id) →
        ∀ go ∈ gs, go._id ≠ g._id := by
  rw [get_groups_none_eq] at h
  have hsub := runPaged_ok_sublist h
  have key : ∀ go ∈ gs, (∃ i ∈ db.images, i.group_id = go._id) ∧ go.count ≠ 0 := by
    intro go hgo
    have hp := mem_pipelineGroups.1 (hsub.subset hgo)
    have hcnt := groupStage_count_pos hp
    rcases mem_groupStage_exists_row hp with ⟨r, hr, hrid⟩
    have hr2 : r ∈ filteredRows db none := (sortStage_perm _).mem_iff.1 hr
    rcases mem_rowsOf.1 hr2 with ⟨g, _, i, hi, hgi, rfl⟩
    refine ⟨⟨i, hi, ?_⟩, Nat.pos_iff_ne_zero.1 hcnt⟩
    rw [hgi]
    exact hrid
  refine ⟨key, fun g _ hno go hgo heq => ?_⟩
  rcases (key go hgo).1 with ⟨i, hi, hgi⟩
  exact hno i hi (by rw [hgi, heq])

theorem C10_empty_groups_absent_witness :
    get_groups_with_images cfgC dbC none none none = .ok gsC ∧
      ((∀ go ∈ gsC, (∃ i ∈ dbC.images, i.group_id = go._id) ∧ go.count ≠ 0) ∧
        ∀ g ∈ dbC.groups, (∀ i ∈ dbC.images, i.group_id ≠ g._id) →
          ∀ go ∈ gsC, go._id ≠ g._id) :=
  ⟨by decide, C10_empty_groups_absent cfgC dbC none none gsC (by decide)⟩

/- ### C1: a valid status filter selects exactly the matching images/groups -/

theorem firstName_eq {rs : List Row} {nm : String} (hne : rs ≠ [])
    (hall : ∀ r ∈ rs, r.name = nm) : firstName rs = nm := by
  cases rs with
  | nil => exact absurd rfl hne
  | cons r rs => exact hall r (List.mem_cons_self r rs)

theorem filter_match_rowsOf {gs : List GroupDoc} (imgs : List Image) (s : String)
    (hnd : (gs.map GroupDoc._id).Nodup) {g : GroupDoc} (hg : g ∈ gs) :
    ((rowsOf gs imgs).filter (fun r => r.image.status == s)).filter
        (fun r => r._id == g._id) =
      (imgs.filter (fun i => i.group_id == g._id && i.status == s)).map
        (fun i => ⟨g._id, g.name, i⟩) := by
  calc ((rowsOf gs imgs).filter (fun r => r.image.status == s)).filter
        (fun r => r._id == g._id)
      = (rowsOf gs imgs).filter
          (fun r => (r._id == g._id) && (r.image.status == s)) :=
        List.filter_filter _ _
    _ = (rowsOf gs imgs).filter
          (fun r => (r.image.status == s) && (r._id == g._id)) :=
        List.filter_congr (fun r _ => Bool.and_comm _ _)
    _ = ((rowsOf gs imgs).filter (fun r => r._id == g._id)).filter
          (fun r => r.image.status == s) :=
        (List.filter_filter _ _).symm
    _ = ((imgs.filter (fun i => i.group_id == g._id)).map
          (fun i => (⟨g._id, g.name, i⟩ : Row))).filter
          (fun r => r.image.status == s) := by
        rw [filter_rowsOf imgs hnd hg]
    _ = ((imgs.filter (fun i => i.group_id == g._id)).filter
          (fun i => i.status == s)).map (fun i => (⟨g._id, g.name, i⟩ : Row)) :=
        List.filter_map _ _
    _ = (imgs.filter (fun i => (i.status == s) && (i.group_id == g._id))).map
          (fun i => (⟨g._id, g.name, i⟩ : Row)) := by
        rw [List.filter_filter]
    _ = (imgs.filter (fun i => i.group_id == g._id && i.status == s)).map
          (fun i => (⟨g._id, g.name, i⟩ : Row)) := by
        rw [List.filter_congr (fun i _ => Bool.and_comm _ _)]

theorem row_origin {db : DB} {r : Row} (hr : r ∈ rowsOf db.groups db.images) :
    ∃ g ∈ db.groups, g._id = r._id := by
  rcases mem_rowsOf.1 hr with ⟨g, hg, i, _, _, rfl⟩
  exact ⟨g, hg, rfl⟩

theorem row_name_eq {db : DB} (hnd : (db.groups.map GroupDoc._id).Nodup)
    {g : GroupDoc} (hg : g ∈ db.groups) {r : Row}
    (hr : r ∈ rowsOf db.groups db.images) (hid : r._id = g._id) :
    r.name = g.name := by
  rcases mem_rowsOf.1 hr with ⟨g2, hg2, i, _, _, rfl⟩
  have heq : g2 = g := List.inj_on_of_nodup_map hnd hg2 hg hid
  rw [heq]

/-- C1: for every GET /groups request with a status filter in the configured
valid-status set and no pagination (pagination truncates the list and is
C6's concern), the returned list contains exactly the groups having at least
one image with that status, and each returned group's `images` array is
exactly (a permutation, ordered per C5, of) its images with that status; the
last conjunct shows that every image of every returned group has the filter
status on *all* such requests, paginated ones included.  The hypotheses
`escapeHtml s = s` and `s ≠ ""` reflect that the handler validates
`escape(status)` and treats an empty `status` as absent; `hnd` is MongoDB's
uniqueness of `_id` in the groups collection. -/
theorem C1_valid_status_filter (cfg : Config) (db : DB) (s : String)
    (gpp : Option String) (hnd : (db.groups.map GroupDoc._id).Nodup)
    (hs : s ∈ cfg.valid_statuses) (hesc : escapeHtml s = s) (hne : s ≠ "") :
    ∃ gs, get_groups_with_images cfg db (some s) none gpp = .ok gs ∧
      (∀ go ∈ gs, ∀ i ∈ go.images, i.status = s) ∧
      (∀ go ∈ gs, go.images.Perm
        (db.images.filter (fun i => i.group_id == go._id && i.status == s))) ∧
      (∀ g ∈ db.groups,
        (∃ i ∈ db.images, i.group_id = g._id ∧ i.status = s) ↔
          ∃ go ∈ gs, go._id = g._id) ∧
      (∀ go ∈ gs, ∃ g ∈ db.groups, go._id = g._id ∧ go.name = g.name) ∧
      (∀ pg gpp2 gs2, get_groups_with_images cfg db (some s) pg gpp2 = .ok gs2 →
        ∀ go ∈ gs2, ∀ i ∈ go.images, i.status = s) := by
  have hq : escapeHtml s ∈ cfg.valid_statuses := by rw [hesc]; exact hs
  have hStatusAll : ∀ go ∈ pipelineGroups db (some s), ∀ i ∈ go.images,
      i.status = s := by
    intro go hgo i hi
    rcases mem_groupStage.1 (mem_pipelineGroups.1 hgo) with ⟨gid, _, rfl⟩
    rw [groupEntry_images] at hi
    rcases List.mem_map.1 hi with ⟨r, hrf, rfl⟩
    have hr : r ∈ filteredRows db (some s) :=
      (sortStage_perm _).mem_iff.1 (List.mem_filter.1 hrf).1
    exact beq_iff_eq.1 (List.mem_filter.1 hr).2
  have hExact : ∀ go ∈ pipelineGroups db (some s), go.images.Perm
      (db.images.filter (fun i => i.group_id == go._id && i.status == s)) := by
    intro go hgo
    rcases mem_groupStage.1 (mem_pipelineGroups.1 hgo) with ⟨gid, hm, rfl⟩
    rw [List.mem_dedup, List.mem_map] at hm
    rcases hm with ⟨r0, hr0, hr0id⟩
    have hr0f : r0 ∈ filteredRows db (some s) := (sortStage_perm _).mem_iff.1 hr0
    have hr0r : r0 ∈ rowsOf db.groups db.images := (List.mem_filter.1 hr0f).1
    rcases row_origin hr0r with ⟨g, hg, hgid⟩
    rw [groupEntry_images]
    have hgid2 : g._id = gid := by rw [hgid, hr0id]
    subst hgid2
    refine List.Perm.trans (List.Perm.map Row.image ((sortStage_perm _).filter _)) ?_
    have hfm : (filteredRows db (some s)).filter (fun r => r._id == g._id) =
        (db.images.filter (fun i => i.group_id == g._id && i.status == s)).map
          (fun i => (⟨g._id, g.name, i⟩ : Row)) :=
      filter_match_rowsOf db.images s hnd hg
    rw [hfm, List.map_map]
    rw [show (Row.image ∘ (fun i => (⟨g._id, g.name, i⟩ : Row))) = id from rfl,
      List.map_id]
    exact List.Perm.refl _
  refine ⟨pipelineGroups db (some s), ?_, ?_, ?_, ?_, ?_, ?_⟩
  · rw [get_groups_valid_eq cfg db none gpp hne hq]
    exact runPaged_none cfg db (some s) gpp
  · exact hStatusAll
  · exact hExact
  · intro g hg
    constructor
    · rintro ⟨i, hi, hgi, hst⟩
      refine ⟨groupEntry (sortStage (filteredRows db (some s))) g._id,
        mem_pipelineGroups.2 (mem_groupStage.2 ⟨g._id, ?_, rfl⟩), rfl⟩
      rw [List.mem_dedup, List.mem_map]
      refine ⟨⟨g._id, g.name, i⟩, (sortStage_perm _).mem_iff.2 ?_, rfl⟩
      refine List.mem_filter.2 ⟨mem_rowsOf.2 ⟨g, hg, i, hi, hgi, rfl⟩, ?_⟩
      rw [beq_iff_eq]
      exact hst
    · rintro ⟨go, hgo, hid⟩
      have himg := hExact go hgo
      have hpos : 0 < go.count := groupStage_count_pos (mem_pipelineGroups.1 hgo)
      have hlen : go.count = go.images.length := count_eq_length_of_mem_pipeline hgo
      have hflt : 0 < (db.images.filter
          (fun i => i.group_id == go._id && i.status == s)).length := by
        rw [← himg.length_eq, ← hlen]
        exact hpos
      rcases List.exists_mem_of_length_pos hflt with ⟨i, hif⟩
      rcases List.mem_filter.1 hif with ⟨hi, hcond⟩
      rw [Bool.and_eq_true, beq_iff_eq, beq_iff_eq] at hcond
      exact ⟨i, hi, by rw [hcond.1, hid], hcond.2⟩
  · intro go hgo
    rcases mem_groupStage.1 (mem_pipelineGroups.1 hgo) with ⟨gid, hm, rfl⟩
    rw [List.mem_dedup, List.mem_map] at hm
    rcases hm with ⟨r0, hr0, hr0id⟩
    have hr0f : r0 ∈ filteredRows db (some s) := (sortStage_perm _).mem_iff.1 hr0
    have hr0r : r0 ∈ rowsOf db.groups db.images := (List.mem_filter.1 hr0f).1
    rcases row_origin hr0r with ⟨g, hg, hgid⟩
    have hgid2 : g._id = gid := by rw [hgid, hr0id]
    subst hgid2
    refine ⟨g, hg, rfl, ?_⟩
    apply firstName_eq
    · exact List.ne_nil_of_mem
        (List.mem_filter.2 ⟨hr0, by rw [beq_iff_eq]; exact hr0id⟩)
    · intro r hr
      rcases List.mem_filter.1 hr with ⟨hr1, hr2⟩
      have hrr : r ∈ rowsOf db.groups db.images :=
        (List.mem_filter.1 ((sortStage_perm _).mem_iff.1 hr1)).1
      exact row_name_eq hnd hg hrr (beq_iff_eq.1 hr2)
  · intro pg gpp2 gs2 h2 go hgo
    rw [get_groups_valid_eq cfg db pg gpp2 hne hq] at h2
    exact hStatusAll go ((runPaged_ok_sublist h2).subset hgo)

theorem C1_valid_status_filter_witness :
    ((dbC.groups.map GroupDoc._id).Nodup ∧ "new" ∈ cfgC.valid_statuses ∧
      escapeHtml "new" = "new" ∧ "new" ≠ "") ∧
    ∃ gs, get_groups_with_images cfgC dbC (some "new") none none = .ok gs ∧
      (∀ go ∈ gs, ∀ i ∈ go.images, i.status = "new") ∧
      (∀ go ∈ gs, go.images.Perm
        (dbC.images.filter (fun i => i.group_id == go._id && i.status == "new"))) ∧
      (∀ g ∈ dbC.groups,
        (∃ i ∈ dbC.images, i.group_id = g._id ∧ i.status = "new") ↔
          ∃ go ∈ gs, go._id = g._id) ∧
      (∀ go ∈ gs, ∃ g ∈ dbC.groups, go._id = g._id ∧ go.name = g.name) ∧
      (∀ pg gpp2 gs2,
        get_groups_with_images cfgC dbC (some "new") pg gpp2 = .ok gs2 →
          ∀ go ∈ gs2, ∀ i ∈ go.images, i.status = "new") :=
  ⟨⟨by decide, by decide, by decide, by decide⟩,
    C1_valid_status_filter cfgC dbC "new" none (by decide) (by decide)
      (by decide) (by decide)⟩

/- ### C6 / C7 / C8: pagination and status validation -/

theorem runPaged_paged (cfg : Config) (db : DB) (sf : Option String) {p : String}
    (gpp : Option String) {pv nv : Int} (hne : p ≠ "")
    (hp : pyInt (escapeHtml p) = .ok pv)
    (hn : pyInt (escapeHtml (gppValue cfg gpp)) = .ok nv)
    (hpv : 0 ≤ pv) (hnv : 1 ≤ nv) :
    runPaged cfg db sf (some p) gpp =
      .ok (((pipelineGroups db sf).drop (pv * nv).toNat).take nv.toNat) := by
  unfold runPaged
  simp only [Option.getD_some, hp, hn]
  rw [if_pos hne]
  rw [if_neg (not_lt.2 (mul_nonneg hpv (le_trans zero_le_one hnv)))]
  rw [if_neg (not_le.2 (lt_of_lt_of_le zero_lt_one hnv))]

theorem runPaged_page_err (cfg : Config) (db : DB) (sf : Option String)
    (gpp : Option String) {p e : String} (hne : p ≠ "")
    (hp : pyInt (escapeHtml p) = .error e) :
    runPaged cfg db sf (some p) gpp =
      .badRequest "Invalid values of query parameters" e := by
  unfold runPaged
  simp only [Option.getD_some, hp]
  rw [if_pos hne]

theorem runPaged_gpp_err (cfg : Config) (db : DB) (sf : Option String)
    (gpp : Option String) {p e : String} {k : Int} (hne : p ≠ "")
    (hp : pyInt (escapeHtml p) = .ok k)
    (hn : pyInt (escapeHtml (gppValue cfg gpp)) = .error e) :
    runPaged cfg db sf (some p) gpp =
      .badRequest "Invalid values of query parameters" e := by
  unfold runPaged
  simp only [Option.getD_some, hp, hn]
  rw [if_pos hne]

/-- Which pipeline the handler runs is a function of `status` and the
configuration alone; an invalid non-empty status short-circuits to a 400. -/
theorem get_groups_sf (cfg : Config) (db : DB) (st pg gpp : Option String) :
    ((st.getD "" = "" ∨ escapeHtml (st.getD "") ∈ cfg.valid_statuses) ∧
      get_groups_with_images cfg db st pg gpp =
        runPaged cfg db
          (if (st.getD "") = "" then none else some (st.getD "")) pg gpp) ∨
    ((st.getD "") ≠ "" ∧ escapeHtml (st.getD "") ∉ cfg.valid_statuses ∧
      get_groups_with_images cfg db st pg gpp =
        .badRequest "Invalid status"
          ("Valid statuses are - " ++ pyListRepr cfg.valid_statuses)) := by
  unfold get_groups_with_images
  dsimp only
  split
  next h =>
    left
    exact ⟨Or.inr h.2, by rw [if_neg h.1]⟩
  next h =>
    split
    next h2 =>
      right
      exact ⟨h2, fun hin => h ⟨h2, hin⟩, rfl⟩
    next h2 =>
      left
      exact ⟨Or.inl (not_ne_iff.1 h2), by rw [if_pos (not_ne_iff.1 h2)]⟩

/-- C6 (amended): when `page` parses to a non-negative integer `pv` and the
effective `groups_per_page` to a positive integer `nv`, the paged response
is exactly the groups at positions `[pv*nv, pv*nv + nv)` of the unpaginated
(filtered, name-sorted) list; an out-of-range page yields `[]`, not an
error; `groups_per_page` defaults to the configured constant when absent;
and with `page` absent no pagination is applied regardless of
`groups_per_page`.  (The original claim, quantified over all parsed
integers, fails for a negative page — see the counterexample: MongoDB
rejects the negative `$skip` and the handler surfaces an uncaught server
error, not a truncated list.) -/
theorem C6_pagination (cfg : Config) (db : DB) (st : Option String) (p : String)
    (gpp : Option String) (pv nv : Int) (base : List GroupOut)
    (hbase : get_groups_with_images cfg db st none gpp = .ok base)
    (hne : p ≠ "") (hp : pyInt (escapeHtml p) = .ok pv)
    (hn : pyInt (escapeHtml (gppValue cfg gpp)) = .ok nv)
    (hpv : 0 ≤ pv) (hnv : 1 ≤ nv) :
    get_groups_with_images cfg db st (some p) gpp =
      .ok ((base.drop (pv * nv).toNat).take nv.toNat) ∧
    (base.length ≤ (pv * nv).toNat →
      get_groups_with_images cfg db st (some p) gpp = .ok []) ∧
    gppValue cfg none = toString cfg.default_groups_per_page ∧
    (∀ gpp2, get_groups_with_images cfg db st none gpp2 =
      get_groups_with_images cfg db st none gpp) := by
  rcases get_groups_sf cfg db st none gpp with ⟨hval, heq⟩ | ⟨h1, h2, heq⟩
  · rw [heq, runPaged_none] at hbase
    injection hbase with hbase2
    have hpage : get_groups_with_images cfg db st (some p) gpp =
        .ok ((base.drop (pv * nv).toNat).take nv.toNat) := by
      rcases get_groups_sf cfg db st (some p) gpp with ⟨_, heq2⟩ | ⟨j1, j2, _⟩
      · rw [heq2, runPaged_paged cfg db _ gpp hne hp hn hpv hnv, hbase2]
      · rcases hval with h | h
        · exact absurd h j1
        · exact absurd h j2
    refine ⟨hpage, fun hlen => ?_, by simp [gppValue], fun gpp2 => ?_⟩
    · rw [hpage, List.drop_eq_nil_of_le hlen, List.take_nil]
    · rcases get_groups_sf cfg db st none gpp2 with ⟨_, heq3⟩ | ⟨j1, j2, _⟩
      · rw [heq3, runPaged_none, heq, runPaged_none]
      · rcases hval with h | h
        · exact absurd h j1
        · exact absurd h j2
  · rw [heq] at hbase
    cases hbase

theorem C6_pagination_witness :
    get_groups_with_images cfgC dbC none none (some "2") = .ok gsC ∧
      ("0" ≠ "" ∧ pyInt (escapeHtml "0") = .ok 0 ∧
        pyInt (escapeHtml (gppValue cfgC (some "2"))) = .ok 2 ∧
        (0 : Int) ≤ 0 ∧ (1 : Int) ≤ 2) ∧
      get_groups_with_images cfgC dbC none (some "0") (some "2") =
        .ok ((gsC.drop ((0 : Int) * 2).toNat).take (2 : Int).toNat) :=
  ⟨by decide, ⟨by decide, rfl, rfl, by decide, by decide⟩,
    (C6_pagination cfgC dbC none "0" (some "2") 0 2 gsC (by decide) (by decide)
      rfl rfl (by decide) (by decide)).1⟩

/-- C6 counterexample: at `page=-1, groups_per_page=2` both values parse as
(signed) integers and the claim would require the response to be the groups
at positions `[-2, 0)`, i.e. `200 []`; the handler instead sends the
negative `$skip` to the database, whose rejection surfaces as an uncaught
server error. -/
theorem C6_counterexample :
    get_groups_with_images cfgC dbC none (some "-1") (some "2") =
      .serverError "invalid argument to $skip stage: Expected a non-negative number" ∧
    get_groups_with_images cfgC dbC none (some "-1") (some "2") ≠ .ok [] :=
  ⟨by decide, by decide⟩

/-- C7 (amended): for every GET /groups request with `page` present, either
a non-empty status fails validation and its own 400 is returned before any
pagination parsing, or `page` and `groups_per_page` are parsed as *signed*
Python integers and any parse failure on either yields a 400 whose
description is the parse error message; no value failing the parse ever
reaches the skip/limit computation.  (The "non-negative" part of the
original claim fails: a negative value parses successfully and reaches the
skip computation — see the counterexample.)  The `isAsciiStr` hypotheses
confine the statement to the inputs on which the `pyInt` model is exactly
CPython's `int()`. -/
theorem C7_pagination_parse (cfg : Config) (db : DB) (st : Option String)
    (p : String) (gpp : Option String) (hne : p ≠ "")
    (_hpa : isAsciiStr p = true)
    (_hga : isAsciiStr (gppValue cfg gpp) = true) :
    ((st.getD "" = "" ∨ escapeHtml (st.getD "") ∈ cfg.valid_statuses) →
      (∀ e, pyInt (escapeHtml p) = .error e →
        get_groups_with_images cfg db st (some p) gpp =
          .badRequest "Invalid values of query parameters" e) ∧
      (∀ k e, pyInt (escapeHtml p) = .ok k →
        pyInt (escapeHtml (gppValue cfg gpp)) = .error e →
          get_groups_with_images cfg db st (some p) gpp =
            .badRequest "Invalid values of query parameters" e)) ∧
    ((st.getD "") ≠ "" → escapeHtml (st.getD "") ∉ cfg.valid_statuses →
      get_groups_with_images cfg db st (some p) gpp =
        .badRequest "Invalid status"
          ("Valid statuses are - " ++ pyListRepr cfg.valid_statuses)) := by
  constructor
  · intro hst
    have heq : get_groups_with_images cfg db st (some p) gpp =
        runPaged cfg db
          (if (st.getD "") = "" then none else some (st.getD ""))
          (some p) gpp := by
      rcases get_groups_sf cfg db st (some p) gpp with ⟨_, heq⟩ | ⟨j1, j2, _⟩
      · exact heq
      · rcases hst with h | h
        · exact absurd h j1
        · exact absurd h j2
    constructor
    · intro e hp
      rw [heq]
      exact runPaged_page_err cfg db _ gpp hne hp
    · intro k e hp hn
      rw [heq]
      exact runPaged_gpp_err cfg db _ gpp hne hp hn
  · intro h1 h2
    rcases get_groups_sf cfg db st (some p) gpp with ⟨hval, _⟩ | ⟨_, _, heq⟩
    · rcases hval with h | h
      · exact absurd h h1
      · exact absurd h h2
    · exact heq

theorem C7_pagination_parse_witness :
    get_groups_with_images cfgC dbC (some "new") (some "x") none =
      .badRequest "Invalid values of query parameters"
        "invalid literal for int() with base 10: x" :=
  ((C7_pagination_parse cfgC dbC (some "new") "x" none (by decide) (by decide)
      (by decide)).1 (Or.inr (by decide))).1
    "invalid literal for int() with base 10: x" rfl

/-- C7 counterexample: `page=-3` is not a non-negative integer, so the claim
would require a 400 parse-failure response; instead the value parses, the
skip computation runs, and the request ends in an uncaught server error. -/
theorem C7_counterexample :
    get_groups_with_images cfgC dbC none (some "-3") (some "5") =
      .serverError "invalid argument to $skip stage: Expected a non-negative number" ∧
    get_groups_with_images cfgC dbC none (some "-3") (some "5") ≠
      .badRequest "Invalid values of query parameters"
        "invalid literal for int() with base 10: -3" :=
  ⟨by decide, by decide⟩

/-- C8 (amended): for every GET /groups request whose supplied status value
is non-empty (and unchanged by HTML escaping) and not in the configured
valid-status set, the handler returns the 400 error naming the set, and no
database query is executed — the response does not depend on the database.
(The original claim fails for the supplied-but-empty status `""`, which the
handler treats as "no filter" — see the counterexample.) -/
theorem C8_invalid_status (cfg : Config) (db db2 : DB) (s : String)
    (pg gpp : Option String) (hne : s ≠ "") (hesc : escapeHtml s = s)
    (hs : s ∉ cfg.valid_statuses) :
    get_groups_with_images cfg db (some s) pg gpp =
      .badRequest "Invalid status"
        ("Valid statuses are - " ++ pyListRepr cfg.valid_statuses) ∧
    get_groups_with_images cfg db (some s) pg gpp =
      get_groups_with_images cfg db2 (some s) pg gpp := by
  have hq : escapeHtml s ∉ cfg.valid_statuses := by rw [hesc]; exact hs
  have h1 := get_groups_invalid_eq cfg db pg gpp hne hq
  have h2 := get_groups_invalid_eq cfg db2 pg gpp hne hq
  exact ⟨h1, by rw [h1, h2]⟩

theorem C8_invalid_status_witness :
    get_groups_with_images cfgC dbC (some "bogus") none none =
      .badRequest "Invalid status"
        ("Valid statuses are - " ++ pyListRepr cfgC.valid_statuses) ∧
    get_groups_with_images cfgC dbC (some "bogus") none none =
      get_groups_with_images cfgC ⟨[], []⟩ (some "bogus") none none :=
  C8_invalid_status cfgC dbC ⟨[], []⟩ "bogus" none none (by decide)
    (by decide) (by decide)

/-- C8 counterexample: `?status=` supplies the empty string, which is not in
the valid-status set, yet the handler ignores it (Python truthiness) and
returns the unfiltered 200 listing instead of a 400. -/
theorem C8_counterexample :
    "" ∉ cfgC.valid_statuses ∧
      get_groups_with_images cfgC dbC (some "") none none = .ok gsC :=
  ⟨by decide, by decide⟩

/- ### C2 / C3: PUT /images/<image_id> -/

theorem find?_split {α : Type} {l : List α} {p : α → Bool} {a : α}
    (h : l.find? p = some a) :
    ∃ l1 l2, l = l1 ++ a :: l2 ∧ ∀ b ∈ l1, p b = false := by
  induction l with
  | nil => cases h
  | cons x l ih =>
    rw [List.find?_cons] at h
    cases hpx : p x with
    | true =>
      rw [hpx] at h
      injection h with h2
      exact ⟨[], l, by rw [h2]; rfl, fun b hb => absurd hb (List.not_mem_nil b)⟩
    | false =>
      rw [hpx] at h
      rcases ih h with ⟨l1, l2, rfl, hall⟩
      refine ⟨x :: l1, l2, rfl, ?_⟩
      intro b hb
      rcases List.mem_cons.1 hb with rfl | hb'
      · exact hpx
      · exact hall b hb'

theorem updateFirst_append {l1 l2 : List Image} {pid : Nat} {s : String}
    {now : Int} {img : Image} (hl1 : ∀ j ∈ l1, (j._id == pid) = false)
    (himg : (img._id == pid) = true) :
    updateFirst (l1 ++ img :: l2) pid s now =
      l1 ++ { img with status := s, last_updated_at := now } :: l2 := by
  induction l1 with
  | nil => simp [updateFirst, himg]
  | cons x l1 ih =>
    rw [List.cons_append, updateFirst, if_neg ?_, List.cons_append,
      ih (fun j hj => hl1 j (List.mem_cons_of_mem x hj))]
    rw [hl1 x (List.mem_cons_self x _)]
    exact Bool.false_ne_true

/-- C2: for every PUT /images/<image_id> request with a well-formed
identifier and a valid requested status equal to the image's current status,
the handler responds 200 with message `Requested status is the same as
current`, performs no write, and every stored field of every image —
`status` and `last_updated_at` included — is unchanged (the collection after
the request is the collection before it). -/
theorem C2_noop_update (cfg : Config) (coll : List Image) (idStr : String)
    (s : String) (pid : Nat) (img : Image) (now : Int)
    (hid : parseObjectId idStr = some pid) (hs : s ∈ cfg.valid_statuses)
    (hfind : coll.find? (fun i => i._id == pid) = some img)
    (hst : img.status = s) :
    update_image_status cfg coll idStr (some s) now =
      (.success "Requested status is the same as current", coll) := by
  unfold update_image_status
  rw [hid]
  simp [hs, hfind, hst]

theorem C2_noop_update_witness :
    update_image_status cfgC [imgA, imgB] "000000000000000000000065" (some "new") 999 =
      (.success "Requested status is the same as current", [imgA, imgB]) :=
  C2_noop_update cfgC [imgA, imgB] "000000000000000000000065" "new" 101 imgA 999
    (by decide) (by decide) (by decide) (by decide)

/-- C3: for every PUT /images/<image_id> request with a well-formed
identifier and a valid requested status differing from the current status
(a missing image reading as "no current status"), the handler issues the
conditional update matching on the identifier: if no document matches
(`modified_count` 0) it responds 400 `Image not found` and the collection is
unchanged; if one matches it responds 200 `Image status updated` and exactly
that document has `status` set to the requested value and `last_updated_at`
set to the current time, all other documents and fields unchanged. -/
theorem C3_status_change (cfg : Config) (coll : List Image) (idStr : String)
    (s : String) (pid : Nat) (now : Int)
    (hid : parseObjectId idStr = some pid) (hs : s ∈ cfg.valid_statuses) :
    (coll.find? (fun i => i._id == pid) = none →
      update_image_status cfg coll idStr (some s) now =
        (.err 400 "Image not found" "Specified ID was not found in database",
          coll)) ∧
    (∀ img, coll.find? (fun i => i._id == pid) = some img → img.status ≠ s →
      ∃ l1 l2, coll = l1 ++ img :: l2 ∧ (∀ j ∈ l1, (j._id == pid) = false) ∧
        update_image_status cfg coll idStr (some s) now =
          (.success "Image status updated",
            l1 ++ { img with status := s, last_updated_at := now } :: l2)) := by
  constructor
  · intro hnone
    unfold update_image_status
    rw [hid]
    simp [hs, hnone]
  · intro img hfind hneq
    rcases find?_split hfind with ⟨l1, l2, hcoll, hl1⟩
    have himg : (img._id == pid) = true := by
      have h := List.find?_some hfind
      exact h
    refine ⟨l1, l2, hcoll, hl1, ?_⟩
    unfold update_image_status
    rw [hid]
    simp only [hfind, Option.map_some']
    rw [if_pos hs, if_pos (by simp [Ne.symm hneq]), if_pos (by simp)]
    rw [hcoll, updateFirst_append hl1 himg]

theorem C3_status_change_witness :
    ∃ l1 l2, [imgA, imgB] = l1 ++ imgB :: l2 ∧
      (∀ j ∈ l1, (j._id == 102) = false) ∧
      update_image_status cfgC [imgA, imgB] "000000000000000000000066"
          (some "new") 999 =
        (.success "Image status updated",
          l1 ++ { imgB with status := "new", last_updated_at := 999 } :: l2) :=
  (C3_status_change cfgC [imgA, imgB] "000000000000000000000066" "new" 102 999
    (by decide) (by decide)).2 imgB (by decide) (by decide)

/- ### C9: GET /statistics -/

/-- C9: GET /statistics always returns 200 with an object pairing each
observed status with the count of images whose `created_at` lies within
`[now - window, now]` inclusive (`window` the configured number of days);
statuses with zero matching images are absent (every listed count is
positive); images outside the window contribute to no count; and the `days`
request parameter does not affect the result. -/
theorem C9_statistics (cfg : Config) (d : Option String) (coll : List Image)
    (now : Int) :
    (get_statistics cfg d coll now).1 = 200 ∧
    (∀ d2, get_statistics cfg d2 coll now = get_statistics cfg d coll now) ∧
    (∀ s n, (s, n) ∈ (get_statistics cfg d coll now).2 ↔
      (0 < n ∧ n = ((coll.filter
          (inStatWindow now cfg.statistic_number_of_days)).filter
        (fun i => i.status == s)).length)) := by
  refine ⟨rfl, fun d2 => rfl, fun s n => ?_⟩
  unfold get_statistics
  dsimp only
  constructor
  · intro h
    rcases List.mem_map.1 h with ⟨s2, hs2, heq⟩
    rw [Prod.mk.injEq] at heq
    rcases heq with ⟨rfl, rfl⟩
    rw [List.mem_dedup, List.mem_map] at hs2
    rcases hs2 with ⟨i, hi, hist⟩
    refine ⟨List.length_pos_of_mem (List.mem_filter.2 ⟨hi, ?_⟩), rfl⟩
    rw [beq_iff_eq]
    exact hist
  · rintro ⟨hpos, hn⟩
    rcases List.exists_mem_of_length_pos (hn ▸ hpos) with ⟨i, hif⟩
    rcases List.mem_filter.1 hif with ⟨hi, hist⟩
    apply List.mem_map.2
    refine ⟨s, ?_, by rw [hn]⟩
    rw [List.mem_dedup, List.mem_map]
    exact ⟨i, hi, beq_iff_eq.1 hist⟩
